import Mathlib

/-!
# dde-control-center: plugin adapter (v20 to v23) and the form module

A shallow embedding of

* `src/plugin-adapterv20tov23/pluginmanagerv20.cpp` (`PluginManagerV20::pluginPath`,
  `PluginManagerV20::loadPlugin`), and
* `src/plugin-test1/formmodule.cpp` (`FormModule::page`, `onCurrentModuleChanged`,
  `onAddChild`, `onRemoveChild`, `clearData`),

followed by the properties established about them.

The toolkit (Qt) and the `ModuleObject` base class are not part of these two
files.  What the code asks of them is taken as data: the file system and the
plugin loader for the plugin manager, the children, their flags and their pages
for the form module.
-/

namespace PluginManagerV20

/-- One element of `QDir::entryInfoList()`: a `QFileInfo`, of which the code
reads `absoluteFilePath()` only. -/
structure QFileInfo where
  absoluteFilePath : String
  deriving DecidableEq, Repr

/-- What `pluginPath` sees of the file system: whether `QDir(PluginDirectory)`
exists, its listing, and `QLibrary::isLibrary`. -/
structure FileSystem where
  dirExists : Bool
  entryInfoList : List QFileInfo
  isLibrary : String → Bool

/-- A line written through `qWarning()` or `qDebug()`; the streamed parts are
kept in order. -/
inductive LogMsg where
  | warning (parts : List String)
  | debug (parts : List String)
  deriving DecidableEq, Repr

/-- The v20 `ModuleInterface` of a plugin, of which `loadPlugin` reads `name()`
and `displayName()`. -/
structure ModuleInterface where
  name : String
  displayName : String
  deriving DecidableEq, Repr

/-- The `QObject` returned by `QPluginLoader::instance()`;
`asModuleInterface` is the result of `qobject_cast<ModuleInterface *>`
(`none` for a null result). -/
structure PluginInstance where
  asModuleInterface : Option ModuleInterface
  deriving DecidableEq, Repr

/-- A `QPluginLoader` constructed on a path: `instance()` (`none` for null) and
`errorString()`. -/
structure QPluginLoader where
  instance_ : Option PluginInstance
  errorString : String
  deriving DecidableEq, Repr

/-- The wrapper `new AdapterV20toV23Module(module)`. -/
structure AdapterV20toV23Module where
  module : ModuleInterface
  deriving DecidableEq, Repr

/-- The manager: its member `m_modules`, and the log written so far. -/
structure Manager where
  m_modules : List AdapterV20toV23Module
  log : List LogMsg
  deriving DecidableEq, Repr

/-- The body of the `for (auto i : moduleList)` loop of `pluginPath`, run over the
rest of the listing with the accumulator `paths`. -/
def pluginPathLoop (isLibrary : String → Bool) : List QFileInfo → List String → List String
  | [], paths => paths
  | i :: rest, paths =>
    let path := i.absoluteFilePath
    if !isLibrary path then
      pluginPathLoop isLibrary rest paths
    else
      pluginPathLoop isLibrary rest (paths ++ [path])

/-- The function `PluginManagerV20::pluginPath`: the returned list and the lines
logged. -/
def pluginPath (fs : FileSystem) : List String × List LogMsg :=
  let paths : List String := []
  if !fs.dirExists then
    (paths, [LogMsg.warning ["plugin directory not exists"]])
  else
    let moduleList := fs.entryInfoList
    (pluginPathLoop fs.isLibrary moduleList paths, [])

/-- The function `PluginManagerV20::loadPlugin`.  `loader` is the `QPluginLoader` built on
`path`, `elapsed` what `et.elapsed()` reads.  The `frameProxy` argument is
unused by the code. -/
def loadPlugin (path : String) (loader : QPluginLoader) (elapsed : Nat) (m : Manager) : Manager :=
  let m := { m with log := m.log ++ [LogMsg.debug ["loading module: ", path]] }
  match loader.instance_ with
  | none =>
    { m with log := m.log ++ [LogMsg.debug [loader.errorString]] }
  | some inst =>
    match inst.asModuleInterface with
    | none => m
    | some module =>
      let m := { m with log := m.log ++
        [LogMsg.debug ["load plugin Name: ", module.name, module.displayName]] }
      let m := { m with log := m.log ++
        [LogMsg.debug ["load this plugin using time: ", toString elapsed, "ms"]] }
      { m with m_modules := m.m_modules ++ [AdapterV20toV23Module.mk module] }

end PluginManagerV20

namespace FormModule

/-- A `ModuleObject *`, compared by address. -/
abbrev ModuleId := Nat

/-- A page `QWidget *` returned by `activePage()`: its index in `State.widgets`. -/
abbrev WidgetId := Nat

/-- The `ModuleObject` side of the form and the toolkit geometry, as the code
reads them at the time a function runs: `childrens()`, `ModuleObject::IsHiden`,
`ModuleObject::IsDisabled`, whether `activePage()` returns a widget,
`displayName()`, `currentModule()` (`none` for null), the flag tests
`IsHidenFlag` and `IsDisabledFlag`, and the y-coordinate of
`w->mapTo(w->parentWidget(), QPoint())`. -/
structure Env where
  childrens : List ModuleId
  isHiden : ModuleId → Bool
  isDisabled : ModuleId → Bool
  hasPage : ModuleId → Bool
  displayName : ModuleId → String
  currentModule : Option ModuleId
  isHidenFlag : Nat → Bool
  isDisabledFlag : Nat → Bool
  mapToParentY : WidgetId → Int

/-- A page widget: the state set by `setDisabled`, and whether `deleteLater()`
was called on it. -/
structure QWidget where
  disabled : Bool
  deleteLater : Bool
  deriving DecidableEq, Repr

/-- One row of a `QFormLayout`: the label text and the field cell, which
`takeAt` empties. -/
structure Row where
  label : String
  field : Option WidgetId
  deriving DecidableEq, Repr

/-- The `QFormLayout` that `m_layout` points to. -/
structure QFormLayout where
  rows : List Row
  deriving DecidableEq, Repr

/-- The `QScrollArea` that `m_area` points to: the `page()` call that made it and
the slider position of its vertical scroll bar, that is the position last
passed to `setSliderPosition` (0 for a new scroll bar). -/
structure QScrollArea where
  page : Nat
  sliderPosition : Int
  deriving DecidableEq, Repr

/-- The form module: the members `m_area`, `m_layout` (`none` for `nullptr`) and
`m_mapWidget`; the page widgets allocated so far; for each call of `page()`
whether its `parentWidget` (and with it the `areaWidget` that is the context of
the child-signal connections) is still alive; the pending single-shot timers,
each with its context (the value of `m_area` when it was set up) and the
captured `child`. -/
structure State where
  m_area : Option QScrollArea
  m_layout : Option QFormLayout
  m_mapWidget : List (ModuleId × WidgetId)
  widgets : List QWidget
  pages : List Bool
  timers : List (Option Nat × Option ModuleId)
  deriving DecidableEq, Repr

/-- The state after the constructor: both pointers null, empty map. -/
def init : State :=
  { m_area := none, m_layout := none, m_mapWidget := [], widgets := [], pages := [], timers := [] }

/-! ### `QMap<ModuleObject *, QWidget *>` -/

/-- The value stored under a key, `none` when `contains` is false. -/
def mapValue (m : List (ModuleId × WidgetId)) (k : ModuleId) : Option WidgetId :=
  match m with
  | [] => none
  | (k', v) :: rest => if k' = k then some v else mapValue rest k

/-- Removal of a key, `QMap::remove`. -/
def mapRemove (m : List (ModuleId × WidgetId)) (k : ModuleId) : List (ModuleId × WidgetId) :=
  m.filter (fun e => decide (e.1 ≠ k))

/-- Insertion, `QMap::insert`: the value of an existing key is replaced. -/
def mapInsert (m : List (ModuleId × WidgetId)) (k : ModuleId) (v : WidgetId) :
    List (ModuleId × WidgetId) :=
  (k, v) :: mapRemove m k

/-- Membership of a key, `QMap::contains`. -/
def mapContains (m : List (ModuleId × WidgetId)) (k : ModuleId) : Bool :=
  (mapValue m k).isSome

/-! ### `QFormLayout` and `QWidget` -/

/-- Row append, `QFormLayout::addRow(label, field)`. -/
def addRow (label : String) (w : WidgetId) (l : QFormLayout) : QFormLayout :=
  { rows := l.rows ++ [{ label := label, field := some w }] }

/-- Row insertion, `QFormLayout::insertRow(row, label, field)`; a `row` beyond
the last row appends. -/
def insertRow (index : Nat) (label : String) (w : WidgetId) (l : QFormLayout) : QFormLayout :=
  { rows := l.rows.take index ++ [{ label := label, field := some w }] ++ l.rows.drop index }

/-- Search of a widget, `QLayout::indexOf(w)`: `none` stands for `-1`.  The item
index is represented by the row that holds the item in its field cell; the
code passes it to `takeAt` only. -/
def indexOfRows (w : WidgetId) : List Row → Option Nat
  | [] => none
  | r :: rest =>
    if r.field = some w then some 0 else (indexOfRows w rest).map (· + 1)

/-- Search of a widget in a layout, `m_layout->indexOf(w)`. -/
def indexOf (w : WidgetId) (l : QFormLayout) : Option Nat :=
  indexOfRows w l.rows

/-- Emptying of the field cell of a row. -/
def takeAtRows : Nat → List Row → List Row
  | _, [] => []
  | 0, r :: rest => { r with field := none } :: rest
  | n + 1, r :: rest => r :: takeAtRows n rest

/-- Item removal, `QFormLayout::takeAt(index)`: the item leaves its cell, the row
itself (and its label) stays in the form. -/
def takeAt (index : Nat) (l : QFormLayout) : QFormLayout :=
  { rows := takeAtRows index l.rows }

/-- Update of one widget of the store. -/
def modifyWidget (f : QWidget → QWidget) : Nat → List QWidget → List QWidget
  | _, [] => []
  | 0, x :: rest => f x :: rest
  | n + 1, x :: rest => x :: modifyWidget f n rest

/-- The call `w->setDisabled(b)`. -/
def setDisabled (w : WidgetId) (b : Bool) (ws : List QWidget) : List QWidget :=
  modifyWidget (fun x => { x with disabled := b }) w ws

/-- The call `w->deleteLater()`. -/
def deleteLater (w : WidgetId) (ws : List QWidget) : List QWidget :=
  modifyWidget (fun x => { x with deleteLater := true }) w ws

/-- A new page widget, as a non-null `activePage()` returns it: the store with
the widget added, and its address. -/
def newWidget (ws : List QWidget) : List QWidget × WidgetId :=
  (ws ++ [{ disabled := false, deleteLater := false }], ws.length)

/-! ### The member functions -/

/-- The function `FormModule::clearData`. -/
def clearData (s : State) : State :=
  { s with m_layout := none, m_area := none, m_mapWidget := [] }

/-- The function `FormModule::onCurrentModuleChanged`: sets up the single-shot timer with
context `m_area` and the captured `child`. -/
def onCurrentModuleChanged (child : Option ModuleId) (s : State) : State :=
  { s with timers := s.timers ++ [(s.m_area.map (fun a => a.page), child)] }

/-- The body of the lambda given to `QTimer::singleShot` in
`onCurrentModuleChanged`.  The result is `none` when a null `m_layout` is
dereferenced. -/
def scrollCallback (env : Env) (child : Option ModuleId) (s : State) : Option State :=
  match s.m_area with
  | none => some s
  | some area =>
    match child.bind (mapValue s.m_mapWidget) with
    | none => some s
    | some w =>
      match s.m_layout with
      | none => none
      | some layout =>
        if indexOf w layout ≠ none then
          let p := env.mapToParentY w
          some { s with m_area := some { area with sliderPosition := p } }
        else
          some s

/-- The `for` loop of `onAddChild` that computes `index`, run over the rest of
`childrens()`. -/
def addIndex (env : Env) (childModule : ModuleId) : List ModuleId → Nat → Nat
  | [], index => index
  | child :: rest, index =>
    if child = childModule then index
    else if !env.isHiden child then addIndex env childModule rest (index + 1)
    else addIndex env childModule rest index

/-- The function `FormModule::onAddChild`.  The result is `none` when a null `m_layout` is
dereferenced. -/
def onAddChild (env : Env) (childModule : ModuleId) (s : State) : Option State :=
  if env.isHiden childModule || mapContains s.m_mapWidget childModule then
    some s
  else
    let index := addIndex env childModule env.childrens 0
    if env.hasPage childModule then
      let (ws, newPage) := newWidget s.widgets
      match s.m_layout with
      | none => none
      | some layout =>
        let layout := insertRow index (env.displayName childModule) newPage layout
        let ws := setDisabled newPage (env.isDisabled childModule) ws
        some { s with m_layout := some layout, widgets := ws,
                      m_mapWidget := mapInsert s.m_mapWidget childModule newPage }
    else
      some s

/-- The function `FormModule::onRemoveChild`.  The result is `none` when a null `m_layout` is
dereferenced. -/
def onRemoveChild (childModule : ModuleId) (s : State) : Option State :=
  match mapValue s.m_mapWidget childModule with
  | none => some s
  | some w =>
    match s.m_layout with
    | none => none
    | some layout =>
      match indexOf w layout with
      | none => some s
      | some index =>
        some { s with widgets := deleteLater w s.widgets,
                      m_layout := some (takeAt index layout),
                      m_mapWidget := mapRemove s.m_mapWidget childModule }

/-- The lambda connected to `childStateChanged` in `page()`. -/
def onChildStateChanged (env : Env) (tmpChild : ModuleId) (flag : Nat) (state : Bool)
    (s : State) : Option State :=
  if env.isHidenFlag flag then
    if state then onRemoveChild tmpChild s
    else onAddChild env tmpChild s
  else if env.isDisabledFlag flag then
    match mapValue s.m_mapWidget tmpChild with
    | some w => some { s with widgets := setDisabled w state s.widgets }
    | none => some s
  else
    some s

/-- The `for` loop of `page()` over the rest of `childrens()`, on the new layout,
`m_mapWidget` and the widget store. -/
def pageLoop (env : Env) :
    List ModuleId → QFormLayout × List (ModuleId × WidgetId) × List QWidget →
    QFormLayout × List (ModuleId × WidgetId) × List QWidget
  | [], acc => acc
  | tmpChild :: rest, (layout, m, ws) =>
    if env.hasPage tmpChild then
      let (ws, page) := newWidget ws
      let layout := addRow (env.displayName tmpChild) page layout
      let m := mapInsert m tmpChild page
      let ws := setDisabled page (env.isDisabled tmpChild) ws
      pageLoop env rest (layout, m, ws)
    else
      pageLoop env rest (layout, m, ws)

/-- The function `FormModule::page`: a new page (parent widget, scroll area, form layout) is
built, filled from `childrens()`, connected to the child signals, and the
scroll to `currentModule()` is set up. -/
def page (env : Env) (s : State) : State :=
  let parentWidget := s.pages.length
  let (layout, m, ws) := pageLoop env env.childrens ({ rows := [] }, s.m_mapWidget, s.widgets)
  let s := { s with pages := s.pages ++ [true],
                    m_layout := some layout,
                    m_area := some { page := parentWidget, sliderPosition := 0 },
                    m_mapWidget := m, widgets := ws }
  onCurrentModuleChanged env.currentModule s

/-! ### Signals -/

/-- What happens to the form: a call of `page()`, the destruction of the parent
widget of a page, the child signals of `ModuleObject`, `currentModuleChanged`,
and the expiry of a pending timer. -/
inductive Event where
  | callPage
  | destroyed (parentWidget : Nat)
  | insertedChild (child : ModuleId)
  | appendedChild (child : ModuleId)
  | removedChild (child : ModuleId)
  | childStateChanged (child : ModuleId) (flag : Nat) (state : Bool)
  | currentModuleChanged (child : Option ModuleId)
  | timeout (timer : Nat)
  deriving DecidableEq, Repr

/-- Delivery of a child signal: the slot runs once for each connection, that is
once for each page whose `areaWidget` is alive. -/
def emit (slot : State → Option State) : Nat → State → Option State
  | 0, s => some s
  | n + 1, s => (slot s).bind (emit slot n)

/-- Number of pages alive. -/
def connections (s : State) : Nat :=
  (s.pages.filter id).length

/-- Destruction of the parent widget of a page: its connections go and the
lambda connected to `destroyed` runs `clearData`. -/
def destroyPage (p : Nat) (s : State) : State :=
  if s.pages.getD p false then
    clearData { s with pages := s.pages.set p false }
  else s

/-- Expiry of a pending timer: the lambda runs unless its context object was
destroyed in the meantime. -/
def fireTimer (env : Env) (k : Nat) (s : State) : Option State :=
  match s.timers[k]? with
  | none => some s
  | some (ctx, child) =>
    let s := { s with timers := s.timers.eraseIdx k }
    match ctx with
    | none => scrollCallback env child s
    | some p => if s.pages.getD p false then scrollCallback env child s else some s

/-- One event handled by the form, in the environment `env` that holds while
the slots run (for a child signal, the children and flags after the change
that the signal reports).  The result is `none` when a slot dereferences a
null `m_layout`. -/
def step (env : Env) (e : Event) (s : State) : Option State :=
  match e with
  | Event.callPage => some (page env s)
  | Event.destroyed p => some (destroyPage p s)
  | Event.insertedChild c => emit (onAddChild env c) (connections s) s
  | Event.appendedChild c => emit (onAddChild env c) (connections s) s
  | Event.removedChild c => emit (onRemoveChild c) (connections s) s
  | Event.childStateChanged c flag state =>
    emit (onChildStateChanged env c flag state) (connections s) s
  | Event.currentModuleChanged child => some (onCurrentModuleChanged child s)
  | Event.timeout k => fireTimer env k s

/-- A sequence of events, each with the environment of its time. -/
def run : List (Env × Event) → State → Option State
  | [], s => some s
  | (env, e) :: rest, s => (step env e s).bind (run rest)

/-! ### Properties spoken of by the specification -/

/-- The widgets in the field cells of the rows, from the first row to the last. -/
def rowWidgets (l : QFormLayout) : List WidgetId :=
  l.rows.filterMap (fun r => r.field)

/-- The page widgets of the displayed children (those with an entry in
`m_mapWidget`), in the order of `childrens()`. -/
def displayedWidgets (env : Env) (s : State) : List WidgetId :=
  env.childrens.filterMap (mapValue s.m_mapWidget)

/-- The rows of the form list the displayed children in the order of
`childrens()`. -/
def rowsFollowChildren (env : Env) (s : State) : Bool :=
  match s.m_layout with
  | none => false
  | some layout => decide (rowWidgets layout = displayedWidgets env s)

/-- The number of displayed children that precede `c` in `childrens()`. -/
def displayedBefore (env : Env) (s : State) (c : ModuleId) : Nat :=
  ((env.childrens.takeWhile (fun x => decide (x ≠ c))).filter
    (mapContains s.m_mapWidget)).length

/-- The pointers `m_area` and `m_layout` are null together, and `m_mapWidget` is
empty while they are. -/
def Consistent (s : State) : Prop :=
  s.m_area.isSome = s.m_layout.isSome ∧ (s.m_layout = none → s.m_mapWidget = [])

/-- At most one page is alive, and while one is alive `m_layout` is not null. -/
def SinglePage (s : State) : Prop :=
  connections s ≤ 1 ∧ (connections s = 1 → s.m_layout ≠ none)

/-- The states the form reaches from construction when `page()` is called only
while no earlier page is alive. -/
inductive ReachableSingle : State → Prop where
  | init : ReachableSingle init
  | step (env : Env) (e : Event) (s s' : State) :
      ReachableSingle s → (e = Event.callPage → connections s = 0) →
      step env e s = some s' → ReachableSingle s'

end FormModule

/-! ## Example inputs -/

namespace PluginManagerV20

/-- A directory with a library, a text file and a second library. -/
def fsExample : FileSystem :=
  { dirExists := true
    entryInfoList := [⟨"/m/a.so"⟩, ⟨"/m/readme"⟩, ⟨"/m/b.so"⟩]
    isLibrary := fun p => p != "/m/readme" }

/-- The same listing behind a directory that does not exist. -/
def fsMissing : FileSystem :=
  { fsExample with dirExists := false }

/-- A manager that has loaded one module already. -/
def managerExample : Manager :=
  { m_modules := [⟨⟨"sound", "Sound"⟩⟩], log := [] }

/-- A loader that could not load its file. -/
def loaderFailed : QPluginLoader :=
  { instance_ := none, errorString := "cannot load library" }

/-- A loader whose instance is a v20 module. -/
def loaderModule : QPluginLoader :=
  { instance_ := some ⟨some ⟨"mouse", "Mouse"⟩⟩, errorString := "" }

end PluginManagerV20

namespace FormModule

/-- A form with the children 1 and 3: none hidden, child 3 disabled, child 1
without a page.  Flag 1 is the hidden flag, flag 2 the disabled flag. -/
def envA : Env :=
  { childrens := [1, 3]
    isHiden := fun _ => false
    isDisabled := fun c => c == 3
    hasPage := fun c => c != 1
    displayName := fun _ => "item"
    currentModule := none
    isHidenFlag := fun f => f == 1
    isDisabledFlag := fun f => f == 2
    mapToParentY := fun w => 40 * (w + 1) }

/-- The form of `envA` after child 2 was inserted between 1 and 3. -/
def envB : Env :=
  { envA with childrens := [1, 2, 3] }

/-- A form whose only child, 5, is hidden and has a page. -/
def envHidden : Env :=
  { envA with childrens := [5], isHiden := fun c => c == 5 }

/-- The state after `page()` on the form of `envA`: one row, for child 3. -/
def stateA : State :=
  { m_area := some { page := 0, sliderPosition := 0 }
    m_layout := some { rows := [{ label := "item", field := some 0 }] }
    m_mapWidget := [(3, 0)]
    widgets := [{ disabled := true, deleteLater := false }]
    pages := [true]
    timers := [(some 0, none)] }

end FormModule

/-! ## Properties of the plugin manager -/

namespace PluginManagerV20

/-- The loop of `pluginPath` adds to its accumulator the library paths of the
listing, in the order of the listing. -/
theorem pluginPathLoop_eq (isLibrary : String → Bool) (l : List QFileInfo) (paths : List String) :
    pluginPathLoop isLibrary l paths
      = paths ++ (l.map QFileInfo.absoluteFilePath).filter isLibrary := by
  induction l generalizing paths with
  | nil => simp [pluginPathLoop]
  | cons i rest ih =>
    simp only [pluginPathLoop, List.map_cons, List.filter_cons]
    cases h : isLibrary i.absoluteFilePath
    · simp [ih]
    · simp [ih]

/-- C1: when the plugin directory exists, `pluginPath` returns the absolute file
paths of the directory listing filtered by `QLibrary::isLibrary`, in the order
of the listing: a path is returned exactly when it is the path of an entry and
a library, and the result is a sublist of the listing's paths (no reordering,
no duplication). -/
theorem pluginPath_eq_filter (fs : FileSystem) (h : fs.dirExists = true) :
    (pluginPath fs).1 = (fs.entryInfoList.map QFileInfo.absoluteFilePath).filter fs.isLibrary
    ∧ (∀ p, p ∈ (pluginPath fs).1 ↔
        (∃ i ∈ fs.entryInfoList, i.absoluteFilePath = p) ∧ fs.isLibrary p = true)
    ∧ List.Sublist (pluginPath fs).1 (fs.entryInfoList.map QFileInfo.absoluteFilePath) := by
  have e : (pluginPath fs).1
      = (fs.entryInfoList.map QFileInfo.absoluteFilePath).filter fs.isLibrary := by
    simp [pluginPath, h, pluginPathLoop_eq]
  refine ⟨e, ?_, ?_⟩
  · intro p
    rw [e]
    simp [List.mem_filter]
  · rw [e]
    exact List.filter_sublist _

/-- On the example directory `pluginPath` returns the two libraries, in the
order of the listing. -/
theorem pluginPath_eq_filter_witness :
    fsExample.dirExists = true ∧ (pluginPath fsExample).1 = ["/m/a.so", "/m/b.so"] :=
  ⟨rfl, (pluginPath_eq_filter fsExample rfl).1.trans (by decide)⟩

/-- C2: when the plugin directory does not exist, `pluginPath` logs the warning
and returns the empty list, whatever the listing and `isLibrary` are; the
function is total, so there is no failure. -/
theorem pluginPath_missing_directory (fs : FileSystem) (h : fs.dirExists = false) :
    pluginPath fs = ([], [LogMsg.warning ["plugin directory not exists"]]) := by
  simp [pluginPath, h]

/-- The example listing behind a missing directory yields no path. -/
theorem pluginPath_missing_directory_witness :
    fsMissing.dirExists = false ∧ fsMissing.entryInfoList.length = 3
      ∧ pluginPath fsMissing = ([], [LogMsg.warning ["plugin directory not exists"]]) :=
  ⟨rfl, rfl, pluginPath_missing_directory fsMissing rfl⟩

/-- C3: when the loader yields no instance, or an instance that is not a v20
`ModuleInterface`, `loadPlugin` leaves `m_modules` as it was. -/
theorem loadPlugin_failure_skips (path : String) (loader : QPluginLoader) (elapsed : Nat)
    (m : Manager)
    (h : loader.instance_ = none
      ∨ ∃ inst, loader.instance_ = some inst ∧ inst.asModuleInterface = none) :
    (loadPlugin path loader elapsed m).m_modules = m.m_modules := by
  rcases h with h | ⟨inst, h, hc⟩
  · simp [loadPlugin, h]
  · simp [loadPlugin, h, hc]

/-- Neither a failed loader nor a foreign instance changes the module list of
the example manager. -/
theorem loadPlugin_failure_skips_witness :
    (loadPlugin "/m/a.so" loaderFailed 3 managerExample).m_modules = managerExample.m_modules :=
  loadPlugin_failure_skips "/m/a.so" loaderFailed 3 managerExample (Or.inl rfl)

/-- C5: when the loader's instance is a v20 `ModuleInterface`, `loadPlugin`
appends one `AdapterV20toV23Module` wrapping that module at the end of
`m_modules`: the list grows by one, its last entry is the wrapper, and every
earlier entry keeps its position and value. -/
theorem loadPlugin_success_appends (path : String) (loader : QPluginLoader) (elapsed : Nat)
    (m : Manager) (inst : PluginInstance) (module : ModuleInterface)
    (h : loader.instance_ = some inst) (hc : inst.asModuleInterface = some module) :
    (loadPlugin path loader elapsed m).m_modules = m.m_modules ++ [AdapterV20toV23Module.mk module]
    ∧ (loadPlugin path loader elapsed m).m_modules.length = m.m_modules.length + 1
    ∧ (loadPlugin path loader elapsed m).m_modules.get? m.m_modules.length
        = some (AdapterV20toV23Module.mk module)
    ∧ ∀ i, i < m.m_modules.length →
        (loadPlugin path loader elapsed m).m_modules.get? i = m.m_modules.get? i := by
  have e : (loadPlugin path loader elapsed m).m_modules
      = m.m_modules ++ [AdapterV20toV23Module.mk module] := by
    simp [loadPlugin, h, hc]
  refine ⟨e, ?_, ?_, ?_⟩
  · rw [e]; simp
  · rw [e]; simp
  · intro i hi
    rw [e]
    simp [List.getElem?_append_left, hi]

/-- The example manager after loading a v20 module: the old wrapper first, the
new one last. -/
theorem loadPlugin_success_appends_witness :
    (loadPlugin "/m/b.so" loaderModule 3 managerExample).m_modules
      = [⟨⟨"sound", "Sound"⟩⟩, ⟨⟨"mouse", "Mouse"⟩⟩] :=
  (loadPlugin_success_appends "/m/b.so" loaderModule 3 managerExample
    ⟨some ⟨"mouse", "Mouse"⟩⟩ ⟨"mouse", "Mouse"⟩ rfl rfl).1

end PluginManagerV20

/-! ## Properties of the form module -/

namespace FormModule

/-! ### The map and the widget store -/

theorem mapValue_mapRemove_ne (m : List (ModuleId × WidgetId)) (k c : ModuleId) (hc : c ≠ k) :
    mapValue (mapRemove m k) c = mapValue m c := by
  induction m with
  | nil => simp [mapRemove, mapValue]
  | cons e rest ih =>
    obtain ⟨k', v⟩ := e
    unfold mapRemove at ih ⊢
    by_cases h : k' = k
    · have h2 : ¬ k' = c := by rw [h]; exact fun e => hc e.symm
      rw [List.filter_cons_of_neg (by simpa using h)]
      simp only [mapValue, h2, if_false]
      exact ih
    · rw [List.filter_cons_of_pos (by simpa using h)]
      simp only [mapValue]
      split
      · rfl
      · exact ih

theorem mapValue_mapInsert_self (m : List (ModuleId × WidgetId)) (k : ModuleId) (v : WidgetId) :
    mapValue (mapInsert m k v) k = some v := by
  simp [mapInsert, mapValue]

theorem mapValue_mapInsert_ne (m : List (ModuleId × WidgetId)) (k c : ModuleId) (v : WidgetId)
    (hc : c ≠ k) : mapValue (mapInsert m k v) c = mapValue m c := by
  have h : ¬ k = c := fun e => hc e.symm
  simp [mapInsert, mapValue, h, mapValue_mapRemove_ne m k c hc]

end FormModule

namespace FormModule

/-- With a layout in place `onAddChild` returns. -/
theorem onAddChild_returns (env : Env) (c : ModuleId) (s : State) (hl : s.m_layout ≠ none) :
    ∃ s', onAddChild env c s = some s' := by
  unfold onAddChild
  split
  · exact ⟨s, rfl⟩
  · split
    · cases h : s.m_layout with
      | none => exact absurd h hl
      | some layout => exact ⟨_, rfl⟩
    · exact ⟨s, rfl⟩

/-- With a layout in place `onRemoveChild` returns. -/
theorem onRemoveChild_returns (c : ModuleId) (s : State) (hl : s.m_layout ≠ none) :
    ∃ s', onRemoveChild c s = some s' := by
  unfold onRemoveChild
  split
  · exact ⟨s, rfl⟩
  · cases h : s.m_layout with
    | none => exact absurd h hl
    | some layout =>
      simp only
      split
      · exact ⟨s, rfl⟩
      · exact ⟨_, rfl⟩

/-- With a layout in place the `childStateChanged` slot returns. -/
theorem onChildStateChanged_returns (env : Env) (c : ModuleId) (flag : Nat) (state : Bool)
    (s : State) (hl : s.m_layout ≠ none) :
    ∃ s', onChildStateChanged env c flag state s = some s' := by
  unfold onChildStateChanged
  split
  · split
    · exact onRemoveChild_returns c s hl
    · exact onAddChild_returns env c s hl
  · split
    · split
      · exact ⟨_, rfl⟩
      · exact ⟨s, rfl⟩
    · exact ⟨s, rfl⟩

end FormModule

namespace FormModule

theorem page_mapWidget (env : Env) (s : State) :
    (page env s).m_mapWidget
      = (pageLoop env env.childrens ({ rows := [] }, s.m_mapWidget, s.widgets)).2.1 := rfl

theorem page_widgets (env : Env) (s : State) :
    (page env s).widgets
      = (pageLoop env env.childrens ({ rows := [] }, s.m_mapWidget, s.widgets)).2.2 := rfl

theorem page_layout (env : Env) (s : State) :
    (page env s).m_layout
      = some (pageLoop env env.childrens ({ rows := [] }, s.m_mapWidget, s.widgets)).1 := rfl

end FormModule

namespace FormModule

/-- C6 fails on the code: `page()` gives a row and a map entry to a hidden child.
On a new form whose only child, 5, is hidden and has a page, `page()` enters
child 5 in `m_mapWidget` and adds its row, while `onAddChild` on the same
child adds nothing. -/
theorem page_shows_hidden_child :
    envHidden.childrens = [5] ∧ envHidden.isHiden 5 = true
    ∧ (page envHidden init).m_mapWidget = [(5, 0)]
    ∧ (page envHidden init).m_layout = some { rows := [{ label := "item", field := some 0 }] }
    ∧ onAddChild envHidden 5 { init with m_layout := some { rows := [] } }
        = some { init with m_layout := some { rows := [] } } := by
  decide

/-- C8 fails on the code: the row of an added child is placed after the count of
the children before it that are not hidden, with or without a row.  On the
form with children 1, 2, 3, where child 1 has no page and child 3 has the only
row, `onAddChild(2)` puts the row of child 2 after the row of child 3: the
rows listed the displayed children in order before the call and do not after
it, and the new row is at position 1 although no displayed child precedes
child 2. -/
theorem onAddChild_row_out_of_order :
    run [(envA, Event.callPage)] init = some stateA
    ∧ rowsFollowChildren envB stateA = true
    ∧ displayedBefore envB stateA 2 = 0
    ∧ addIndex envB 2 envB.childrens 0 = 1
    ∧ (onAddChild envB 2 stateA).map (fun s => s.m_layout.map rowWidgets) = some (some [0, 1])
    ∧ (onAddChild envB 2 stateA).map (fun s => displayedWidgets envB s) = some [1, 0]
    ∧ (onAddChild envB 2 stateA).map (rowsFollowChildren envB) = some false := by
  decide

/-- C10 fails on the code: after two calls of `page()` and the destruction of the
first page, `m_layout` and `m_area` are null while the connections of the
second page are alive, and the `insertedChild` signal for a child that is not
hidden and has a page runs `onAddChild` into the dereference of the null
`m_layout`. -/
theorem onAddChild_null_layout_after_destroy :
    (run [(envA, Event.callPage), (envA, Event.callPage), (envA, Event.destroyed 0)] init).map
        (fun s => (s.m_layout, s.m_area, s.pages)) = some (none, none, [false, true])
    ∧ envB.isHiden 2 = false ∧ envB.hasPage 2 = true
    ∧ run [(envA, Event.callPage), (envA, Event.callPage), (envA, Event.destroyed 0),
        (envB, Event.insertedChild 2)] init = none := by
  decide

end FormModule

namespace FormModule

/-! ### What the code computes for rows -/

/-- The index computed by `onAddChild` is the number of children before
`childModule` that are not hidden, added to the start value. -/
theorem addIndex_eq (env : Env) (childModule : ModuleId) (l : List ModuleId) (index : Nat) :
    addIndex env childModule l index
      = index + ((l.takeWhile (fun x => decide (x ≠ childModule))).filter
          (fun x => !env.isHiden x)).length := by
  induction l generalizing index with
  | nil => simp [addIndex]
  | cons child rest ih =>
    by_cases hc : child = childModule
    · simp [addIndex, hc]
    · cases hh : env.isHiden child
      · simp [addIndex, hc, hh, ih, List.takeWhile_cons]
        omega
      · simp [addIndex, hc, hh, ih, List.takeWhile_cons]

/-- The loop of `page()` enters exactly the children whose `activePage()` is
non-null, hidden or not, next to the entries already present. -/
theorem pageLoop_contains (env : Env) (l : List ModuleId) (layout : QFormLayout)
    (m : List (ModuleId × WidgetId)) (ws : List QWidget) (c : ModuleId) :
    mapContains (pageLoop env l (layout, m, ws)).2.1 c = true
      ↔ mapContains m c = true ∨ (c ∈ l ∧ env.hasPage c = true) := by
  induction l generalizing layout m ws with
  | nil => simp [pageLoop]
  | cons x rest ih =>
    simp only [pageLoop]
    split
    · rename_i hx
      rw [ih]
      by_cases hc : c = x
      · subst hc
        simp [mapContains, mapValue_mapInsert_self, newWidget, hx]
      · have hne : ¬ x = c := fun e => hc e.symm
        simp [mapContains, mapValue_mapInsert_ne _ _ _ _ hc, hc]
    · rename_i hx
      rw [ih]
      by_cases hc : c = x
      · subst hc
        simp [hx]
      · simp [hc]

/-- After `page()` on a new form, the children with an entry in `m_mapWidget`
are the children whose `activePage()` is non-null; the hidden flag is not
read. -/
theorem page_contains (env : Env) (c : ModuleId) :
    mapContains (page env init).m_mapWidget c = true ↔ (c ∈ env.childrens ∧ env.hasPage c = true) := by
  rw [page_mapWidget, pageLoop_contains]
  simp [init, mapContains, mapValue]

end FormModule

namespace FormModule

theorem addIndex_shift (env : Env) (c : ModuleId) (l : List ModuleId) (k : Nat) :
    addIndex env c l k = k + addIndex env c l 0 := by
  rw [addIndex_eq env c l k, addIndex_eq env c l 0]
  omega

/-- Where the children before `c` that are not hidden are the ones with an
entry, the index computed by `onAddChild` splits the displayed widgets at the
place of `c`. -/
theorem insert_at_addIndex (env : Env) (m : List (ModuleId × WidgetId)) (c : ModuleId)
    (v : WidgetId) (l : List ModuleId)
    (hmem : c ∈ l) (hnodup : l.Nodup) (hc : mapValue m c = none)
    (hb : ∀ x ∈ l.takeWhile (fun x => decide (x ≠ c)),
      (env.isHiden x = false ↔ mapContains m x = true)) :
    (l.filterMap (mapValue m)).take (addIndex env c l 0)
        ++ v :: (l.filterMap (mapValue m)).drop (addIndex env c l 0)
      = l.filterMap (mapValue (mapInsert m c v)) := by
  induction l with
  | nil => simp at hmem
  | cons x rest ih =>
    have hnd := List.nodup_cons.mp hnodup
    by_cases hx : x = c
    · subst hx
      have hrest : rest.filterMap (mapValue (mapInsert m x v)) = rest.filterMap (mapValue m) := by
        apply List.filterMap_congr
        intro y hy
        have hne : y ≠ x := fun e => hnd.1 (e ▸ hy)
        exact mapValue_mapInsert_ne m x y v hne
      simp [addIndex, List.filterMap_cons, hc, mapValue_mapInsert_self, hrest]
    · have hmem' : c ∈ rest := by
        rcases List.mem_cons.mp hmem with h | h
        · exact absurd h.symm hx
        · exact h
      have hb' : ∀ y ∈ rest.takeWhile (fun x => decide (x ≠ c)),
          (env.isHiden y = false ↔ mapContains m y = true) := by
        intro y hy
        apply hb
        rw [List.takeWhile_cons_of_pos (by simpa using hx)]
        exact List.mem_cons_of_mem _ hy
      have hbx : env.isHiden x = false ↔ mapContains m x = true := by
        apply hb
        rw [List.takeWhile_cons_of_pos (by simpa using hx)]
        exact List.mem_cons_self _ _
      have ih' := ih hmem' hnd.2 hb'
      have hmx : mapValue (mapInsert m c v) x = mapValue m x :=
        mapValue_mapInsert_ne m c x v hx
      cases hh : env.isHiden x
      · have hcont := hbx.mp hh
        cases hv : mapValue m x with
        | none => simp [mapContains, hv] at hcont
        | some w =>
          have e : addIndex env c (x :: rest) 0 = addIndex env c rest 0 + 1 := by
            simp only [addIndex, hx, hh, if_false, Bool.not_false, if_true]
            rw [addIndex_shift]
            omega
          rw [e]
          simp only [List.filterMap_cons, hv, hmx, List.take_succ_cons, List.drop_succ_cons,
            List.cons_append]
          rw [ih']
      · have hcont : ¬ mapContains m x = true := fun h => by
          have := hbx.mpr h
          rw [hh] at this
          cases this
        have hv : mapValue m x = none := by
          cases hv : mapValue m x with
          | none => rfl
          | some w => simp [mapContains, hv] at hcont
        have e : addIndex env c (x :: rest) 0 = addIndex env c rest 0 := by
          simp [addIndex, hx, hh]
        rw [e]
        simp only [List.filterMap_cons, hv, hmx]
        exact ih'

/-- Rows follow the order of the children over `onAddChild(c)` under the
condition the index loop relies on: `c` is one of the children (each listed
once), every row holds the page of a displayed child, in the order of
`childrens()`, and the children before `c` that are not hidden are exactly
the ones with a row.  The call then returns and the rows again list the
displayed children in the order of `childrens()`. -/
theorem onAddChild_keeps_order (env : Env) (s : State) (c : ModuleId) (layout : QFormLayout)
    (hl : s.m_layout = some layout)
    (hrows : layout.rows.map (fun r => r.field) = (displayedWidgets env s).map some)
    (hmem : c ∈ env.childrens) (hnodup : env.childrens.Nodup)
    (hb : ∀ x ∈ env.childrens.takeWhile (fun x => decide (x ≠ c)),
      (env.isHiden x = false ↔ mapContains s.m_mapWidget x = true)) :
    ∃ s' layout', onAddChild env c s = some s' ∧ s'.m_layout = some layout'
      ∧ layout'.rows.map (fun r => r.field) = (displayedWidgets env s').map some := by
  unfold onAddChild
  split
  · exact ⟨s, layout, rfl, hl, hrows⟩
  · rename_i hguard
    split
    · have hc : mapValue s.m_mapWidget c = none := by
        cases hv : mapValue s.m_mapWidget c with
        | none => rfl
        | some w => simp [mapContains, hv] at hguard
      simp only [hl]
      refine ⟨_, _, rfl, rfl, ?_⟩
      have key := insert_at_addIndex env s.m_mapWidget c s.widgets.length env.childrens
        hmem hnodup hc hb
      simp only [insertRow, displayedWidgets, newWidget, List.map_append, List.map_take,
        List.map_drop, List.map_cons, List.map_nil, hrows]
      rw [← key]
      simp [displayedWidgets, List.map_take, List.map_drop]
    · exact ⟨s, layout, rfl, hl, hrows⟩

end FormModule

namespace FormModule

/-! ### Null pointers -/

theorem onAddChild_consistent (env : Env) (c : ModuleId) (s s' : State)
    (hc : Consistent s) (h : onAddChild env c s = some s') :
    Consistent s' ∧ s'.pages = s.pages ∧ (s.m_layout ≠ none → s'.m_layout ≠ none) := by
  unfold onAddChild at h
  split at h
  · injection h with h; subst h; exact ⟨hc, rfl, id⟩
  · split at h
    · cases hl : s.m_layout with
      | none => simp [hl] at h
      | some layout =>
        simp only [hl] at h
        injection h with h
        subst h
        refine ⟨⟨?_, ?_⟩, rfl, ?_⟩
        · have := hc.1
          rw [hl] at this
          simpa using this
        · intro hn; simp at hn
        · intro _; simp
    · injection h with h; subst h; exact ⟨hc, rfl, id⟩

theorem onRemoveChild_consistent (c : ModuleId) (s s' : State)
    (hc : Consistent s) (h : onRemoveChild c s = some s') :
    Consistent s' ∧ s'.pages = s.pages ∧ (s.m_layout ≠ none → s'.m_layout ≠ none) := by
  unfold onRemoveChild at h
  split at h
  · injection h with h; subst h; exact ⟨hc, rfl, id⟩
  · cases hl : s.m_layout with
    | none => simp [hl] at h
    | some layout =>
      simp only [hl] at h
      split at h
      · injection h with h; subst h; exact ⟨hc, rfl, fun _ => by rw [hl]; simp⟩
      · injection h with h
        subst h
        refine ⟨⟨?_, ?_⟩, rfl, ?_⟩
        · have := hc.1
          rw [hl] at this
          simpa using this
        · intro hn; simp at hn
        · intro _; simp

theorem onChildStateChanged_consistent (env : Env) (c : ModuleId) (flag : Nat) (state : Bool)
    (s s' : State) (hc : Consistent s) (h : onChildStateChanged env c flag state s = some s') :
    Consistent s' ∧ s'.pages = s.pages ∧ (s.m_layout ≠ none → s'.m_layout ≠ none) := by
  unfold onChildStateChanged at h
  split at h
  · split at h
    · exact onRemoveChild_consistent c s s' hc h
    · exact onAddChild_consistent env c s s' hc h
  · split at h
    · split at h
      · injection h with h; subst h; exact ⟨hc, rfl, id⟩
      · injection h with h; subst h; exact ⟨hc, rfl, id⟩
    · injection h with h; subst h; exact ⟨hc, rfl, id⟩

/-- A slot that keeps `Consistent`, the pages and a non-null layout keeps them
over a delivery to any number of connections. -/
theorem emit_consistent (slot : State → Option State)
    (hslot : ∀ s s', Consistent s → slot s = some s' →
      Consistent s' ∧ s'.pages = s.pages ∧ (s.m_layout ≠ none → s'.m_layout ≠ none))
    (n : Nat) (s s' : State) (hc : Consistent s) (h : emit slot n s = some s') :
    Consistent s' ∧ s'.pages = s.pages ∧ (s.m_layout ≠ none → s'.m_layout ≠ none) := by
  induction n generalizing s with
  | zero =>
    simp only [emit] at h
    injection h with h; subst h; exact ⟨hc, rfl, id⟩
  | succ n ih =>
    simp only [emit] at h
    cases h1 : slot s with
    | none => simp [h1] at h
    | some s1 =>
      simp only [h1, Option.some_bind] at h
      have a := hslot s s1 hc h1
      have b := ih s1 a.1 h
      exact ⟨b.1, b.2.1.trans a.2.1, fun hl => b.2.2 (a.2.2 hl)⟩

theorem scrollCallback_consistent (env : Env) (child : Option ModuleId) (s s' : State)
    (hc : Consistent s) (h : scrollCallback env child s = some s') :
    Consistent s' ∧ s'.pages = s.pages ∧ s'.m_layout = s.m_layout := by
  unfold scrollCallback at h
  split at h
  · injection h with h; subst h; exact ⟨hc, rfl, rfl⟩
  · split at h
    · injection h with h; subst h; exact ⟨hc, rfl, rfl⟩
    · split at h
      · simp at h
      · rename_i area ha w hw layout hl
        split at h
        · injection h with h
          subst h
          refine ⟨⟨?_, ?_⟩, rfl, rfl⟩
          · simp [hl]
          · intro hn; simp [hl] at hn
        · injection h with h; subst h; exact ⟨hc, rfl, rfl⟩

theorem fireTimer_consistent (env : Env) (k : Nat) (s s' : State)
    (hc : Consistent s) (h : fireTimer env k s = some s') :
    Consistent s' ∧ s'.pages = s.pages ∧ s'.m_layout = s.m_layout := by
  unfold fireTimer at h
  split at h
  · injection h with h; subst h; exact ⟨hc, rfl, rfl⟩
  · simp only at h
    split at h
    · exact scrollCallback_consistent env _ { s with timers := s.timers.eraseIdx k } s' hc h
    · split at h
      · exact scrollCallback_consistent env _ { s with timers := s.timers.eraseIdx k } s' hc h
      · injection h with h; subst h; exact ⟨hc, rfl, rfl⟩

theorem page_consistent (env : Env) (s : State) : Consistent (page env s) :=
  ⟨rfl, fun h => by simp [page_layout] at h⟩

theorem destroyPage_consistent (p : Nat) (s : State) (hc : Consistent s) :
    Consistent (destroyPage p s) := by
  unfold destroyPage
  split
  · exact ⟨rfl, fun _ => rfl⟩
  · exact hc

/-- The pointers `m_area` and `m_layout` stay null together, and the map stays
empty while they are null, over every event that returns. -/
theorem step_consistent (env : Env) (e : Event) (s s' : State)
    (hc : Consistent s) (h : step env e s = some s') : Consistent s' := by
  cases e with
  | callPage =>
    simp only [step] at h
    injection h with h; subst h; exact page_consistent env s
  | destroyed p =>
    simp only [step] at h
    injection h with h; subst h; exact destroyPage_consistent p s hc
  | insertedChild c =>
    exact (emit_consistent _ (fun a b => onAddChild_consistent env c a b) _ s s' hc h).1
  | appendedChild c =>
    exact (emit_consistent _ (fun a b => onAddChild_consistent env c a b) _ s s' hc h).1
  | removedChild c =>
    exact (emit_consistent _ (fun a b => onRemoveChild_consistent c a b) _ s s' hc h).1
  | childStateChanged c flag state =>
    exact (emit_consistent _
      (fun a b => onChildStateChanged_consistent env c flag state a b) _ s s' hc h).1
  | currentModuleChanged child =>
    simp only [step] at h
    injection h with h; subst h; exact hc
  | timeout k =>
    exact (fireTimer_consistent env k s s' hc h).1

/-- In every state reached from construction by events that return, `m_area` is
non-null exactly when `m_layout` is, and `m_mapWidget` is empty while
`m_layout` is null. -/
theorem run_consistent (evs : List (Env × Event)) (s s' : State)
    (hc : Consistent s) (h : run evs s = some s') : Consistent s' := by
  induction evs generalizing s with
  | nil =>
    simp only [run] at h
    injection h with h; subst h; exact hc
  | cons x rest ih =>
    obtain ⟨env, e⟩ := x
    simp only [run] at h
    cases h1 : step env e s with
    | none => simp [h1] at h
    | some s1 =>
      simp only [h1, Option.some_bind] at h
      exact ih s1 (step_consistent env e s s1 hc h1) h

theorem init_consistent : Consistent init :=
  ⟨rfl, fun _ => rfl⟩

end FormModule

namespace FormModule

theorem connections_page (env : Env) (s : State) :
    connections (page env s) = connections s + 1 := by
  have h : (page env s).pages = s.pages ++ [true] := rfl
  simp [connections, h]

theorem alive_set_false (l : List Bool) (p : Nat) (h : l.getD p false = true) :
    ((l.set p false).filter id).length + 1 = (l.filter id).length := by
  induction l generalizing p with
  | nil => simp at h
  | cons b rest ih =>
    cases p with
    | zero =>
      simp at h
      subst h
      simp
    | succ q =>
      have h' : rest.getD q false = true := by simpa using h
      have := ih q h'
      cases b <;> simp [List.filter_cons] <;> omega

theorem scrollCallback_returns (env : Env) (child : Option ModuleId) (s : State)
    (hc : Consistent s) : ∃ s', scrollCallback env child s = some s' := by
  unfold scrollCallback
  split
  · exact ⟨s, rfl⟩
  · rename_i area ha
    split
    · exact ⟨s, rfl⟩
    · cases hl : s.m_layout with
      | none =>
        have := hc.1
        rw [ha, hl] at this
        simp at this
      | some layout =>
        simp only
        split
        · exact ⟨_, rfl⟩
        · exact ⟨s, rfl⟩

theorem fireTimer_returns (env : Env) (k : Nat) (s : State) (hc : Consistent s) :
    ∃ s', fireTimer env k s = some s' := by
  unfold fireTimer
  split
  · exact ⟨s, rfl⟩
  · simp only
    split
    · exact scrollCallback_returns env _ { s with timers := s.timers.eraseIdx k } hc
    · split
      · exact scrollCallback_returns env _ { s with timers := s.timers.eraseIdx k } hc
      · exact ⟨_, rfl⟩

/-- Delivery to the connections returns when a layout is in place and the slot
returns on every state with a layout. -/
theorem emit_returns (slot : State → Option State)
    (hret : ∀ s, s.m_layout ≠ none → ∃ s', slot s = some s')
    (hslot : ∀ s s', Consistent s → slot s = some s' →
      Consistent s' ∧ s'.pages = s.pages ∧ (s.m_layout ≠ none → s'.m_layout ≠ none))
    (n : Nat) (s : State) (hc : Consistent s) (hl : 0 < n → s.m_layout ≠ none) :
    ∃ s', emit slot n s = some s' := by
  induction n generalizing s with
  | zero => exact ⟨s, rfl⟩
  | succ n ih =>
    have hl' := hl (Nat.succ_pos n)
    obtain ⟨s1, h1⟩ := hret s hl'
    have a := hslot s s1 hc h1
    obtain ⟨s2, h2⟩ := ih s1 a.1 (fun _ => a.2.2 hl')
    exact ⟨s2, by simp [emit, h1, h2]⟩

theorem singlePage_of_pages (s s' : State) (hp : SinglePage s) (hpages : s'.pages = s.pages)
    (hl : s.m_layout ≠ none → s'.m_layout ≠ none) : SinglePage s' := by
  have e : connections s' = connections s := by simp [connections, hpages]
  exact ⟨e ▸ hp.1, fun h => hl (hp.2 (e ▸ h))⟩

/-- A child signal is handled without a null dereference when at most one page
is alive. -/
theorem emit_single_page (slot : State → Option State)
    (hret : ∀ s, s.m_layout ≠ none → ∃ s', slot s = some s')
    (hslot : ∀ s s', Consistent s → slot s = some s' →
      Consistent s' ∧ s'.pages = s.pages ∧ (s.m_layout ≠ none → s'.m_layout ≠ none))
    (s : State) (hc : Consistent s) (hp : SinglePage s) :
    ∃ s', emit slot (connections s) s = some s' ∧ Consistent s' ∧ SinglePage s' := by
  have hl : 0 < connections s → s.m_layout ≠ none := by
    intro h0
    exact hp.2 (Nat.le_antisymm hp.1 h0)
  obtain ⟨s', h⟩ := emit_returns slot hret hslot (connections s) s hc hl
  have a := emit_consistent slot hslot (connections s) s s' hc h
  exact ⟨s', h, a.1, singlePage_of_pages s s' hp a.2.1 a.2.2⟩

/-- One event, with `page()` called only while no page is alive: the event is
handled without a null dereference and the next state is of the same kind. -/
theorem step_single_page (env : Env) (e : Event) (s : State)
    (hc : Consistent s) (hp : SinglePage s) (ha : e = Event.callPage → connections s = 0) :
    ∃ s', step env e s = some s' ∧ Consistent s' ∧ SinglePage s' := by
  cases e with
  | callPage =>
    refine ⟨page env s, rfl, page_consistent env s, ?_, ?_⟩
    · rw [connections_page, ha rfl]
    · intro _
      simp [page_layout]
  | destroyed p =>
    refine ⟨destroyPage p s, rfl, destroyPage_consistent p s hc, ?_⟩
    unfold destroyPage
    split
    · rename_i halive
      have h1 := alive_set_false s.pages p halive
      have h2 := hp.1
      have h0 : connections (clearData { s with pages := s.pages.set p false }) = 0 := by
        simp only [connections, clearData] at h2 ⊢
        omega
      exact ⟨by rw [h0]; exact Nat.zero_le 1, fun h => by rw [h0] at h; cases h⟩
    · exact hp
  | insertedChild c =>
    exact emit_single_page _ (onAddChild_returns env c)
      (fun a b => onAddChild_consistent env c a b) s hc hp
  | appendedChild c =>
    exact emit_single_page _ (onAddChild_returns env c)
      (fun a b => onAddChild_consistent env c a b) s hc hp
  | removedChild c =>
    exact emit_single_page _ (onRemoveChild_returns c)
      (fun a b => onRemoveChild_consistent c a b) s hc hp
  | childStateChanged c flag state =>
    exact emit_single_page _ (onChildStateChanged_returns env c flag state)
      (fun a b => onChildStateChanged_consistent env c flag state a b) s hc hp
  | currentModuleChanged child =>
    exact ⟨onCurrentModuleChanged child s, rfl, hc, hp⟩
  | timeout k =>
    obtain ⟨s', h⟩ := fireTimer_returns env k s hc
    have a := fireTimer_consistent env k s s' hc h
    exact ⟨s', h, a.1, singlePage_of_pages s s' hp a.2.1 (fun hl => by rw [a.2.2]; exact hl)⟩

theorem reachableSingle_invariant (s : State) (hr : ReachableSingle s) :
    Consistent s ∧ SinglePage s := by
  induction hr with
  | init => exact ⟨init_consistent, by decide, fun h => by cases h⟩
  | step env e s s' _ ha hstep ih =>
    obtain ⟨s1, h1, hc1, hp1⟩ := step_single_page env e s ih.1 ih.2 ha
    rw [hstep] at h1
    injection h1 with h1
    subst h1
    exact ⟨hc1, hp1⟩

/-- While `page()` is called only when no earlier page is alive, no event makes
a handler dereference a null `m_layout`: from every state so reached, every
further event of that kind returns. -/
theorem single_page_never_null (s : State) (hr : ReachableSingle s) (env : Env) (e : Event)
    (ha : e = Event.callPage → connections s = 0) :
    ∃ s', step env e s = some s' := by
  have hi := reachableSingle_invariant s hr
  obtain ⟨s', h, _⟩ := step_single_page env e s hi.1 hi.2 ha
  exact ⟨s', h⟩

end FormModule
